import Mathlib

/-!
Verification development for the nand-2-tetris toolchain (Hack assembler and
VM translator). The assembler line parser (`parse_ins`), the assembly driver
(`assemble`) and the VM translator tokenizer and segment-label composer are
embedded from the Rust sources; the instruction encoder, whose source file is
absent from the tree, is modelled from the specification.
-/

namespace Hack

/-- A character is 7-bit ASCII (Rust `str::is_ascii`). -/
def isAsciiChar (c : Char) : Bool := c.toNat < 128

/-- Rust `char::is_whitespace` restricted to the ASCII range
(the parser rejects non-ASCII lines before scanning). -/
def isWhitespaceRust (c : Char) : Bool :=
  c.toNat = 32 || (9 ≤ c.toNat && c.toNat ≤ 13)

/-- First character of a Hack symbol: `'_'|'.'|'$'|':'|'a'..='z'|'A'..='Z'`. -/
def isSymFirst (c : Char) : Bool :=
  c = '_' || c = '.' || c = '$' || c = ':' || c.isAlpha

/-- Subsequent character of a Hack symbol: additionally digits. -/
def isSymRest (c : Char) : Bool := isSymFirst c || c.isDigit

/-- `SymUse` from `main.rs`: a symbol holds a RAM address (variable)
or a ROM address (label). -/
inductive SymUse where
  | ARAM
  | LROM
deriving Repr, DecidableEq

/-- `MneType` from `main.rs`. -/
inductive MneType where
  | dest
  | comp
  | jump
deriving Repr, DecidableEq

/-- `DestMne` from `main.rs`. -/
inductive DestMne where
  | destM | destD | destDM | destA | destAM | destAD | destADM
deriving Repr, DecidableEq

/-- `CompMne` from `main.rs`. -/
inductive CompMne where
  | comp0 | comp1 | compMinus1 | compD | compA | compM
  | compNotD | compNotA | compNotM | compMinusD | compMinusA | compMinusM
  | compDPlus1 | compAPlus1 | compMPlus1 | compDMinus1 | compAMinus1 | compMMinus1
  | compDPlusA | compDPlusM | compDMinusA | compDMinusM | compAMinusD | compMMinusD
  | compDAndA | compDAndM | compDOrA | compDOrM
deriving Repr, DecidableEq

/-- `JumpMne` from `main.rs`. -/
inductive JumpMne where
  | jumpJgt | jumpJeq | jumpJge | jumpJlt | jumpJne | jumpJle | jumpJmp
deriving Repr, DecidableEq

/-- `Ins` from `main.rs`: parsed Hack instruction. Addresses and slot ids are
modelled as `Nat` (the source uses `u16`/`usize`; all values stay far below
the wrap point on the paths verified here). -/
inductive Ins where
  | A1 (cint : Nat)
  | A2 (sym_id : Nat)
  | L1 (sym_id : Nat)
  | C1 (dest : DestMne) (comp : CompMne)
  | C2 (dest : DestMne) (comp : CompMne) (jump : JumpMne)
  | C3 (comp : CompMne) (jump : JumpMne)
deriving Repr, DecidableEq

/-- `ParseError` from `main.rs`. The mnemonic buffer is modelled as the string
of characters written so far (the fixed `[u8; 4]` buffer is filled left to
right, so it is determined by that string padded with spaces). -/
inductive ParseError where
  | unknownMne (mne_type : Option MneType) (mne_buf : String)
  | expectedFirstSymChar (found : Char) (pos : Nat)
  | expectedSymChar (found : Char) (pos : Nat)
  | expectedDigit (found : Char) (pos : Nat)
  | unexpectedChar (found : Char) (pos : Nat)
  | duplicateLabel
  | aInsMissingArg
  | lInsMissingSym
  | lInsMissingClose
  | symOverflow
  | intOverflow
  | notASCII
  | cInsNop
deriving Repr, DecidableEq

/-- Pad a mnemonic accumulation string with trailing spaces to the 4-byte
buffer width (`MNE_BUF_LEN`), reproducing the `[' '; 4]` initialisation. -/
def padMne (s : String) : String := s.pushn ' ' (4 - s.length)

/-- `DestMne::from_mne_buf`: exact match of the padded 4-char buffer. -/
def DestMne.from_mne_buf (buf : String) : Except ParseError DestMne :=
  match padMne buf with
  | "M   " => .ok .destM
  | "D   " => .ok .destD
  | "DM  " => .ok .destDM
  | "A   " => .ok .destA
  | "AM  " => .ok .destAM
  | "AD  " => .ok .destAD
  | "ADM " => .ok .destADM
  | _ => .error (.unknownMne (some .dest) (padMne buf))

/-- `CompMne::from_mne_buf`: exact match of the padded 4-char buffer. -/
def CompMne.from_mne_buf (buf : String) : Except ParseError CompMne :=
  match padMne buf with
  | "0   " => .ok .comp0
  | "1   " => .ok .comp1
  | "-1  " => .ok .compMinus1
  | "D   " => .ok .compD
  | "A   " => .ok .compA
  | "M   " => .ok .compM
  | "!D  " => .ok .compNotD
  | "!A  " => .ok .compNotA
  | "!M  " => .ok .compNotM
  | "-D  " => .ok .compMinusD
  | "-A  " => .ok .compMinusA
  | "-M  " => .ok .compMinusM
  | "D+1 " => .ok .compDPlus1
  | "A+1 " => .ok .compAPlus1
  | "M+1 " => .ok .compMPlus1
  | "D-1 " => .ok .compDMinus1
  | "A-1 " => .ok .compAMinus1
  | "M-1 " => .ok .compMMinus1
  | "D+A " => .ok .compDPlusA
  | "D+M " => .ok .compDPlusM
  | "D-A " => .ok .compDMinusA
  | "D-M " => .ok .compDMinusM
  | "A-D " => .ok .compAMinusD
  | "M-D " => .ok .compMMinusD
  | "D&A " => .ok .compDAndA
  | "D&M " => .ok .compDAndM
  | "D|A " => .ok .compDOrA
  | "D|M " => .ok .compDOrM
  | _ => .error (.unknownMne (some .comp) (padMne buf))

/-- `JumpMne::from_mne_buf`: exact match of the padded 4-char buffer. -/
def JumpMne.from_mne_buf (buf : String) : Except ParseError JumpMne :=
  match padMne buf with
  | "JGT " => .ok .jumpJgt
  | "JEQ " => .ok .jumpJeq
  | "JGE " => .ok .jumpJge
  | "JLT " => .ok .jumpJlt
  | "JNE " => .ok .jumpJne
  | "JLE " => .ok .jumpJle
  | "JMP " => .ok .jumpJmp
  | _ => .error (.unknownMne (some .jump) (padMne buf))

/-- The DFA states of `parse_ins`. -/
inductive DFA where
  | start | aOpen | aSym | aInt | lFirst | lClose | lRest
  | cFirst | cComp | cJump1 | cJump2
deriving Repr, DecidableEq

/-- Scanner state of `parse_ins`: DFA state plus the symbol buffer and the
three mnemonic buffers (each modelled as the string of characters pushed). -/
structure ScanSt where
  dfa : DFA
  sb : String
  mb0 : String
  mb1 : String
  mb2 : String
deriving Repr, DecidableEq

/-- `push_sym_char`: fails with `SymOverflow` once the 255-byte symbol buffer
(`MAX_SYM_LEN`) is full. -/
def push_sym_char (c : Char) (sb : String) : Except ParseError String :=
  if sb.length = 255 then .error .symOverflow else .ok (sb.push c)

/-- `push_mne_char`: writes into the 4-byte mnemonic buffer and fails with
`UnknownMne` carrying the buffer once more than `MAX_MNE_LEN = 3` characters
have been pushed. -/
def push_mne_char (c : Char) (mb : String) (t : Option MneType) :
    Except ParseError String :=
  let mb2 := mb.push c
  if mb2.length > 3 then .error (.unknownMne t mb2) else .ok mb2

/-- The character loop of `parse_ins`: whitespace is skipped, `#` terminates
scanning, every other character drives the DFA. `pos` is the index reported in
positional errors (byte index in the source; equal to the character index
because the line is ASCII). -/
def scan_chars : List Char → Nat → ScanSt → Except ParseError ScanSt
  | [], _, st => .ok st
  | c :: rest, pos, st =>
    if isWhitespaceRust c then scan_chars rest (pos + 1) st
    else if c = '#' then .ok st
    else
      match st.dfa with
      | .start =>
        if c = '@' then scan_chars rest (pos + 1) { st with dfa := .aOpen }
        else if c = '(' then scan_chars rest (pos + 1) { st with dfa := .lFirst }
        else
          match push_mne_char c st.mb0 none with
          | .error e => .error e
          | .ok mb => scan_chars rest (pos + 1) { st with dfa := .cFirst, mb0 := mb }
      | .aOpen =>
        if c.isDigit then
          match push_sym_char c st.sb with
          | .error e => .error e
          | .ok sb => scan_chars rest (pos + 1) { st with dfa := .aInt, sb := sb }
        else if isSymFirst c then
          match push_sym_char c st.sb with
          | .error e => .error e
          | .ok sb => scan_chars rest (pos + 1) { st with dfa := .aSym, sb := sb }
        else .error (.expectedFirstSymChar c pos)
      | .aSym =>
        if isSymRest c then
          match push_sym_char c st.sb with
          | .error e => .error e
          | .ok sb => scan_chars rest (pos + 1) { st with sb := sb }
        else .error (.expectedSymChar c pos)
      | .aInt =>
        if c.isDigit then
          match push_sym_char c st.sb with
          | .error e => .error e
          | .ok sb => scan_chars rest (pos + 1) { st with sb := sb }
        else .error (.expectedDigit c pos)
      | .lFirst =>
        if isSymFirst c then
          match push_sym_char c st.sb with
          | .error e => .error e
          | .ok sb => scan_chars rest (pos + 1) { st with dfa := .lRest, sb := sb }
        else .error (.expectedFirstSymChar c pos)
      | .lRest =>
        if isSymRest c then
          match push_sym_char c st.sb with
          | .error e => .error e
          | .ok sb => scan_chars rest (pos + 1) { st with sb := sb }
        else if c = ')' then scan_chars rest (pos + 1) { st with dfa := .lClose }
        else .error (.expectedSymChar c pos)
      | .lClose => .error (.unexpectedChar c pos)
      | .cFirst =>
        if c = ';' then scan_chars rest (pos + 1) { st with dfa := .cJump1 }
        else if c = '=' then scan_chars rest (pos + 1) { st with dfa := .cComp }
        else
          match push_mne_char c st.mb0 none with
          | .error e => .error e
          | .ok mb => scan_chars rest (pos + 1) { st with mb0 := mb }
      | .cComp =>
        if c = ';' then scan_chars rest (pos + 1) { st with dfa := .cJump2 }
        else
          match push_mne_char c st.mb1 (some .comp) with
          | .error e => .error e
          | .ok mb => scan_chars rest (pos + 1) { st with mb1 := mb }
      | .cJump1 =>
        match push_mne_char c st.mb1 (some .jump) with
        | .error e => .error e
        | .ok mb => scan_chars rest (pos + 1) { st with mb1 := mb }
      | .cJump2 =>
        match push_mne_char c st.mb2 (some .jump) with
        | .error e => .error e
        | .ok mb => scan_chars rest (pos + 1) { st with mb2 := mb }

/-- Initial scanner state. -/
def initScanSt : ScanSt := ⟨.start, "", "", "", ""⟩

/-- Scan a whole line: the ASCII check of `parse_ins` followed by the
character loop. -/
def scan_of (l : String) : Except ParseError ScanSt :=
  if l.toList.all isAsciiChar then scan_chars l.toList 0 initScanSt
  else .error .notASCII

/-- The forward symbol map (`HashMap<String, usize>`), modelled as an
association list with unique keys; insertion order matches slot allocation. -/
abbrev SymKey := List (String × Nat)

/-- The slot value vector (`Vec<(u16, SymUse)>`). -/
abbrev SymVal := List (Nat × SymUse)

/-- `HashMap::get` on the modelled forward map. -/
def sym_lookup (name : String) : SymKey → Option Nat
  | [] => none
  | (k, v) :: rest => if k = name then some v else sym_lookup name rest

deriving instance DecidableEq for Except

/-- `ParseResult` from `main.rs`. -/
abbrev ParseResult := Except ParseError (Option Ins)

/-- Numeric value of the digit string accumulated for an A-literal. -/
def nat_of_digits (s : String) : Nat :=
  s.toList.foldl (fun a c => a * 10 + (c.toNat - 48)) 0

/-- The terminal action of `parse_ins`: maps the final DFA state (and buffers)
to the produced instruction or error, updating the symbol tables exactly where
the source does (the `ASym` and `LClose` arms). A-literal parsing reproduces
`str::parse::<u16>` (values above 65535 fail) followed by the
`MAX_INT_VAL = 32767` check; both produce `IntOverflow`. -/
def terminal_action (st : ScanSt) (ip : Nat) (kt : SymKey) (vt : SymVal) :
    ParseResult × SymKey × SymVal :=
  match st.dfa with
  | .start => (.ok none, kt, vt)
  | .aOpen => (.error .aInsMissingArg, kt, vt)
  | .aInt =>
    let v := nat_of_digits st.sb
    if v > 65535 then (.error .intOverflow, kt, vt)
    else if v > 32767 then (.error .intOverflow, kt, vt)
    else (.ok (some (.A1 v)), kt, vt)
  | .aSym =>
    match sym_lookup st.sb kt with
    | some id => (.ok (some (.A2 id)), kt, vt)
    | none =>
      (.ok (some (.A2 vt.length)), kt ++ [(st.sb, vt.length)], vt ++ [(0, .ARAM)])
  | .lFirst => (.error .lInsMissingSym, kt, vt)
  | .lRest => (.error .lInsMissingClose, kt, vt)
  | .lClose =>
    match sym_lookup st.sb kt with
    | some id =>
      if (vt.getD id (0, .ARAM)).2 = .LROM then (.error .duplicateLabel, kt, vt)
      else (.ok (some (.L1 id)), kt, vt.set id (ip + 1, .LROM))
    | none =>
      (.ok (some (.L1 vt.length)), kt ++ [(st.sb, vt.length)], vt ++ [(ip + 1, .LROM)])
  | .cFirst => (.error .cInsNop, kt, vt)
  | .cComp =>
    match DestMne.from_mne_buf st.mb0 with
    | .error e => (.error e, kt, vt)
    | .ok dest =>
      match CompMne.from_mne_buf st.mb1 with
      | .error e => (.error e, kt, vt)
      | .ok comp => (.ok (some (.C1 dest comp)), kt, vt)
  | .cJump1 =>
    match CompMne.from_mne_buf st.mb0 with
    | .error e => (.error e, kt, vt)
    | .ok comp =>
      match JumpMne.from_mne_buf st.mb1 with
      | .error e => (.error e, kt, vt)
      | .ok jump => (.ok (some (.C3 comp jump)), kt, vt)
  | .cJump2 =>
    match DestMne.from_mne_buf st.mb0 with
    | .error e => (.error e, kt, vt)
    | .ok dest =>
      match CompMne.from_mne_buf st.mb1 with
      | .error e => (.error e, kt, vt)
      | .ok comp =>
        match JumpMne.from_mne_buf st.mb2 with
        | .error e => (.error e, kt, vt)
        | .ok jump => (.ok (some (.C2 dest comp jump)), kt, vt)

/-- `parse_ins` from `main.rs`: parse one line of Hack assembly, threading the
two symbol-table structures. -/
def parse_ins (l : String) (ip : Nat) (kt : SymKey) (vt : SymVal) :
    ParseResult × SymKey × SymVal :=
  match scan_of l with
  | .error e => (.error e, kt, vt)
  | .ok st => terminal_action st ip kt vt

/-! ## The assembly driver (`assembler.rs`, `assemble`) -/

/-- State of the driver's parse pass. `done` records an early `return` from
`assemble`; `flushCount` counts explicit `bin_out.flush()` calls; `errors`
records the `write_parse_error` reports as (line number, error) pairs. -/
structure DriverSt where
  symKey : SymKey
  symVal : SymVal
  errorCount : Nat
  lineCount : Nat
  nextVarRam : Nat
  insPtr : Nat
  inss : List Ins
  errors : List (Nat × ParseError)
  flushCount : Nat
  romExhausted : Bool
  done : Bool
deriving Repr, DecidableEq

/-- The seeded forward map: `R0..R15`, `SP LCL ARG THIS THAT`, `SCREEN`,
`KBD`, in the insertion order of `assemble`. -/
def seedKey : SymKey :=
  [("R0", 0), ("R1", 1), ("R2", 2), ("R3", 3), ("R4", 4), ("R5", 5),
   ("R6", 6), ("R7", 7), ("R8", 8), ("R9", 9), ("R10", 10), ("R11", 11),
   ("R12", 12), ("R13", 13), ("R14", 14), ("R15", 15),
   ("SP", 16), ("LCL", 17), ("ARG", 18), ("THIS", 19), ("THAT", 20),
   ("SCREEN", 21), ("KBD", 22)]

/-- The seeded slot values: `R0..R15` get 0..15, `SP LCL ARG THIS THAT` get
0..4, `SCREEN` 16384, `KBD` 24576 -- all of kind `ARAM`. -/
def seedVal : SymVal :=
  [(0, .ARAM), (1, .ARAM), (2, .ARAM), (3, .ARAM), (4, .ARAM), (5, .ARAM),
   (6, .ARAM), (7, .ARAM), (8, .ARAM), (9, .ARAM), (10, .ARAM), (11, .ARAM),
   (12, .ARAM), (13, .ARAM), (14, .ARAM), (15, .ARAM),
   (0, .ARAM), (1, .ARAM), (2, .ARAM), (3, .ARAM), (4, .ARAM),
   (16384, .ARAM), (24576, .ARAM)]

/-- Driver state after seeding, before the parse pass
(`next_var_ram_address` has been advanced to 16 by the `R0..R15` loop). -/
def initDriver : DriverSt :=
  { symKey := seedKey, symVal := seedVal, errorCount := 0, lineCount := 0,
    nextVarRam := 16, insPtr := 0, inss := [], errors := [], flushCount := 0,
    romExhausted := false, done := false }

/-- One iteration of the parse-pass loop of `assemble`: parse the line; an
`L1` instruction is retained without advancing `ins_ptr`, any other
instruction is retained and advances it, a blank/comment line `continue`s
(skipping the ROM check), and an error is reported, counted and advances
`ins_ptr`; ten errors abort (without flushing), and `ins_ptr` reaching
`MAX_ROM_ADDRESS = 32767` after a non-`continue` iteration aborts with the
ROM-exhausted report after a flush. -/
def step_line (l : String) (s : DriverSt) : DriverSt :=
  let s := { s with lineCount := s.lineCount + 1 }
  match parse_ins l s.insPtr s.symKey s.symVal with
  | (.ok (some ins), kt, vt) =>
    let isLabel : Bool := (match ins with | .L1 _ => true | _ => false)
    let s := { s with
      symKey := kt, symVal := vt, inss := s.inss ++ [ins],
      insPtr := if isLabel then s.insPtr else s.insPtr + 1 }
    if s.insPtr ≥ 32767 then
      { s with romExhausted := true, flushCount := s.flushCount + 1, done := true }
    else s
  | (.ok none, kt, vt) => { s with symKey := kt, symVal := vt }
  | (.error e, kt, vt) =>
    let s := { s with
      symKey := kt, symVal := vt,
      errors := s.errors ++ [(s.lineCount, e)],
      errorCount := s.errorCount + 1, insPtr := s.insPtr + 1 }
    if s.errorCount ≥ 10 then { s with done := true }
    else if s.insPtr ≥ 32767 then
      { s with romExhausted := true, flushCount := s.flushCount + 1, done := true }
    else s

/-- The parse pass: fold `step_line` over the input lines, stopping at the
first early return. -/
def parse_loop : List String → DriverSt → DriverSt
  | [], s => s
  | l :: rest, s => if s.done then s else parse_loop rest (step_line l s)

/-- Result of the address-distribution walk. `exhausted` records the early
RAM-exhausted return; on early return the remaining slots keep their old
values. -/
structure DistOut where
  table : SymVal
  counter : Nat
  exhausted : Bool
deriving Repr, DecidableEq

/-- The address-distribution walk of `assemble`: every slot of kind `ARAM`
whose address is the sentinel `DEFAULT_RAM_ADDRESS = 0` receives the next
counter value; after each slot, a counter at or beyond
`SCR_RAM_ADDRESS = 16384` aborts. -/
def distribute_ram : SymVal → Nat → DistOut
  | [], c => ⟨[], c, false⟩
  | (a, u) :: rest, c =>
    let p : (Nat × SymUse) × Nat :=
      if u = .ARAM ∧ a = 0 then ((c, u), c + 1) else ((a, u), c)
    if p.2 ≥ 16384 then ⟨p.1 :: rest, p.2, true⟩
    else
      let r := distribute_ram rest p.2
      ⟨p.1 :: r.table, r.counter, r.exhausted⟩

/-- Dest field of a C-instruction: bits 5..3, `A D M` one-hot MSB to LSB. -/
def dest_bits : DestMne → Nat
  | .destM => 1
  | .destD => 2
  | .destDM => 3
  | .destA => 4
  | .destAM => 5
  | .destAD => 6
  | .destADM => 7

/-- Jump field of a C-instruction: bits 2..0. -/
def jump_bits : JumpMne → Nat
  | .jumpJgt => 1
  | .jumpJeq => 2
  | .jumpJge => 3
  | .jumpJlt => 4
  | .jumpJne => 5
  | .jumpJle => 6
  | .jumpJmp => 7

/-- Comp field of a C-instruction: 7 bits, bit 12 selects A (0) versus M (1),
bits 11..6 are the ALU control -- the standard Hack encoding. -/
def comp_bits : CompMne → Nat
  | .comp0 => 0b0101010
  | .comp1 => 0b0111111
  | .compMinus1 => 0b0111010
  | .compD => 0b0001100
  | .compA => 0b0110000
  | .compM => 0b1110000
  | .compNotD => 0b0001101
  | .compNotA => 0b0110001
  | .compNotM => 0b1110001
  | .compMinusD => 0b0001111
  | .compMinusA => 0b0110011
  | .compMinusM => 0b1110011
  | .compDPlus1 => 0b0011111
  | .compAPlus1 => 0b0110111
  | .compMPlus1 => 0b1110111
  | .compDMinus1 => 0b0001110
  | .compAMinus1 => 0b0110010
  | .compMMinus1 => 0b1110010
  | .compDPlusA => 0b0000010
  | .compDPlusM => 0b1000010
  | .compDMinusA => 0b0010011
  | .compDMinusM => 0b1010011
  | .compAMinusD => 0b0000111
  | .compMMinusD => 0b1000111
  | .compDAndA => 0b0000000
  | .compDAndM => 0b1000000
  | .compDOrA => 0b0010101
  | .compDOrM => 0b1010101

/-- Modelled from the spec: `encode_ins` lives in `encoder.rs`, which is
absent from the source tree (only its caller in `assembler.rs` is present).
Following spec section 4.4: an A-literal encodes as its value in the low 15
bits with top bit 0; an A-symbol as the symbol's resolved table address;
an L-label encodes no output word; a C-instruction as
`111 a cccccc ddd jjj`. -/
def encode_ins (i : Ins) (vt : SymVal) : Option Nat :=
  match i with
  | .A1 v => some (v % 32768)
  | .A2 sid => some ((vt.getD sid (0, .ARAM)).1 % 32768)
  | .L1 _ => none
  | .C1 d c => some (0b111 * 8192 + comp_bits c * 64 + dest_bits d * 8)
  | .C2 d c j => some (0b111 * 8192 + comp_bits c * 64 + dest_bits d * 8 + jump_bits j)
  | .C3 c j => some (0b111 * 8192 + comp_bits c * 64 + jump_bits j)

/-- Overall result of `assemble`: the final counters, the encoded output
words, the flush count, the reported parse errors and the final symbol
table. -/
structure AsmOut where
  lineCount : Nat
  insPtr : Nat
  output : List Nat
  flushCount : Nat
  errors : List (Nat × ParseError)
  errorCount : Nat
  symKey : SymKey
  symVal : SymVal
  romExhausted : Bool
  ramExhausted : Bool
deriving Repr, DecidableEq

/-- `assemble` from `assembler.rs`: seed the tables, run the parse pass,
distribute RAM addresses, then encode and flush. The early returns (ten
parse errors, ROM exhausted, RAM exhausted) skip the later passes; only the
ten-error return skips the flush. -/
def assemble (asm_in : List String) : AsmOut :=
  let s := parse_loop asm_in initDriver
  if s.done then
    ⟨s.lineCount, s.insPtr, [], s.flushCount, s.errors, s.errorCount,
     s.symKey, s.symVal, s.romExhausted, false⟩
  else
    let d := distribute_ram s.symVal s.nextVarRam
    if d.exhausted then
      ⟨s.lineCount, s.insPtr, [], s.flushCount + 1, s.errors, s.errorCount,
       s.symKey, d.table, s.romExhausted, true⟩
    else
      ⟨s.lineCount, s.insPtr, s.inss.filterMap (fun i => encode_ins i d.table),
       s.flushCount + 1, s.errors, s.errorCount, s.symKey, d.table, false, false⟩

end Hack

namespace VmXlat

/-- `VmCmd` from `tokenizer.rs`. -/
inductive VmCmd where
  | Function | Return | Label | IfGoto | Goto | Call | Push | Pop
  | Add | Sub | Neg | And | Or | Not | Eq | Lt | Gt
deriving Repr, DecidableEq

/-- `VmSeg` from `tokenizer.rs`. -/
inductive VmSeg where
  | Argument | Local | Static | Constant | This | That | Pointer | Temp
deriving Repr, DecidableEq

/-- `VmToken` from `tokenizer.rs`. -/
inductive VmToken where
  | Command (cmd : VmCmd)
  | Segment (seg : VmSeg)
  | Identifier (name : String)
  | IntConst (value : Nat)
deriving Repr, DecidableEq

/-- `TokenError` from `tokenizer.rs` (the I/O variant is never produced by
the pure classification modelled here). -/
inductive TokenError where
  | InvalidToken (word : String)
  | IoError
deriving Repr, DecidableEq

/-- Rust `str::parse::<u16>`: an optional leading `+`, then one or more
decimal digits, value at most 65535. -/
def parse_u16 (s : String) : Option Nat :=
  let cs := s.toList
  let ds := match cs with
    | '+' :: rest => rest
    | _ => cs
  if ds.isEmpty then none
  else if ds.all (fun c => c.isDigit) then
    let v := ds.foldl (fun a c => a * 10 + (c.toNat - 48)) 0
    if v ≤ 65535 then some v else none
  else none

/-- The command keyword table of `VmToken::from_str`. -/
def cmd_of_str (w : String) : Option VmCmd :=
  match w with
  | "function" => some .Function
  | "return" => some .Return
  | "label" => some .Label
  | "if-goto" => some .IfGoto
  | "goto" => some .Goto
  | "call" => some .Call
  | "push" => some .Push
  | "pop" => some .Pop
  | "add" => some .Add
  | "sub" => some .Sub
  | "neg" => some .Neg
  | "and" => some .And
  | "or" => some .Or
  | "not" => some .Not
  | "eq" => some .Eq
  | "lt" => some .Lt
  | "gt" => some .Gt
  | _ => none

/-- The segment keyword table of `VmToken::from_str`. -/
def seg_of_str (w : String) : Option VmSeg :=
  match w with
  | "argument" => some .Argument
  | "local" => some .Local
  | "static" => some .Static
  | "constant" => some .Constant
  | "this" => some .This
  | "that" => some .That
  | "pointer" => some .Pointer
  | "temp" => some .Temp
  | _ => none

/-- A character of the regex class `[\w.$:]` used by the `TOKEN` regex of
`VmToken::from_str`, for the ASCII range (`\w` is `[0-9A-Za-z_]` there). -/
def is_vm_word_char (c : Char) : Bool :=
  c.isAlphanum || c = '_' || c = '.' || c = '$' || c = ':'

/-- `VmToken::from_str`: integer first, then the command and segment keyword
tables, then the `TOKEN` regex test. `Regex::is_match` of the unanchored
pattern `[\w.$:]+` holds exactly when some character of the word is in the
class. -/
def VmToken.from_str (w : String) : Except TokenError VmToken :=
  match parse_u16 w with
  | some n => .ok (.IntConst n)
  | none =>
    match cmd_of_str w with
    | some c => .ok (.Command c)
    | none =>
      match seg_of_str w with
      | some s => .ok (.Segment s)
      | none =>
        if w.toList.any is_vm_word_char then .ok (.Identifier w)
        else .error (.InvalidToken w)

/-- The line truncation of `Tokenizer::next`: cut at the first `//`. -/
def trunc_comment : List Char → List Char
  | [] => []
  | '/' :: '/' :: _ => []
  | c :: rest => c :: trunc_comment rest

/-- Maximal non-whitespace runs (the `WORDS` regex `[\S]+` of
`Tokenizer::next`); `acc` holds the current word reversed. -/
def split_words_go : List Char → List Char → List String
  | [], acc => if acc.isEmpty then [] else [String.mk acc.reverse]
  | c :: rest, acc =>
    if Hack.isWhitespaceRust c then
      if acc.isEmpty then split_words_go rest []
      else String.mk acc.reverse :: split_words_go rest []
    else split_words_go rest (c :: acc)

/-- The source words of one line of VM code: truncate at the first `//`, then
split into maximal whitespace-free substrings. -/
def words_of (line : String) : List String :=
  split_words_go (trunc_comment line.toList) []

/-- The identifier rule as the spec words it: a full match of
`[A-Za-z_.$:][A-Za-z0-9_.$:]*` (first character). -/
def spec_ident_first (c : Char) : Bool :=
  c.isAlpha || c = '_' || c = '.' || c = '$' || c = ':'

/-- The identifier rule as the spec words it (subsequent characters). -/
def spec_ident_rest (c : Char) : Bool := spec_ident_first c || c.isDigit

/-- The identifier rule as the spec words it: the word matches
`[A-Za-z_.$:][A-Za-z0-9_.$:]*` in full. -/
def spec_ident_full_match (w : String) : Bool :=
  match w.toList with
  | [] => false
  | c :: rest => spec_ident_first c && rest.all spec_ident_rest

/-- `InsContext` from `coder.rs`. -/
structure InsContext where
  vm_file_name : String
  vm_function_name : String
deriving Repr, DecidableEq

/-- Abnormal outcomes of `compose_segment_label`: its `CodeError` result
(`IndexOutOfBounds` with the `Range` bounds it reports), or a Rust panic --
an out-of-bounds write into the 3-element digit buffer, or a
`debug_assert!` violation. -/
inductive CodeStop where
  | IndexOutOfBounds (segment : VmSeg) (index : Nat) (lo : Nat) (hi : Nat)
  | SliceOverrun
  | AssertViolation
deriving Repr, DecidableEq

/-- The digit loop of the `Static` arm of `compose_segment_label`:
`while num > 0 { debug_assert!(i > 0); buf[i] = digit; num /= 10; i -= 1 }`.
A write at an index not below the buffer length is an out-of-bounds panic. -/
def static_digit_loop (num i : Nat) (buf : List Char) :
    Except CodeStop (List Char) :=
  if h : 0 < num then
    if i = 0 then .error .AssertViolation
    else if i < buf.length then
      static_digit_loop (num / 10) (i - 1)
        (buf.set i (Char.ofNat (48 + num % 10)))
    else .error .SliceOverrun
  else .ok buf
termination_by num
decreasing_by exact Nat.div_lt_self h (by norm_num)

/-- `compose_segment_label` from `coder.rs`: the textual operand that
`push`/`pop` emission inserts after `@`. The `Static` arm enforces
`MAX_STATIC_VARIABLES = 240`, then renders the index through a 3-character
buffer `['\0'; 3]` starting at write position `i = 3`, and appends the
non-NUL characters to `<file stem>.`. -/
def compose_segment_label (ctx : InsContext) (segment : VmSeg) (index : Nat) :
    Except CodeStop String :=
  match segment with
  | .Constant => .ok ""
  | .Argument => .ok "ARG"
  | .Local => .ok "LCL"
  | .This => .ok "THIS"
  | .That => .ok "THAT"
  | .Pointer =>
    if index = 0 then .ok "THIS"
    else if index = 1 then .ok "THAT"
    else .error (.IndexOutOfBounds .Pointer index 0 1)
  | .Temp =>
    match index with
    | 0 => .ok "R5"
    | 1 => .ok "R6"
    | 2 => .ok "R7"
    | 3 => .ok "R8"
    | 4 => .ok "R9"
    | 5 => .ok "R10"
    | 6 => .ok "R11"
    | 7 => .ok "R12"
    | _ => .error (.IndexOutOfBounds .Temp index 0 7)
  | .Static =>
    if index ≥ 240 then .error (.IndexOutOfBounds .Static index 0 239)
    else
      match static_digit_loop index 3 [Char.ofNat 0, Char.ofNat 0, Char.ofNat 0] with
      | .error e => .error e
      | .ok buf =>
        .ok (ctx.vm_file_name ++ "." ++
          String.mk (buf.filter (fun c => c ≠ Char.ofNat 0)))

end VmXlat

namespace Hack

/-! ## Helper lemmas -/

theorem sym_lookup_append_none {name : String} {kt : SymKey} (i : Nat)
    (h : sym_lookup name kt = none) :
    sym_lookup name (kt ++ [(name, i)]) = some i := by
  induction kt with
  | nil => simp [sym_lookup]
  | cons p rest ih =>
    obtain ⟨k, v⟩ := p
    by_cases hk : k = name
    · simp [sym_lookup, hk] at h
    · simp [sym_lookup, hk] at h ⊢
      exact ih h

theorem getD_append_length {α : Type} (l : List α) (x d : α) :
    (l ++ [x]).getD l.length d = x := by
  induction l with
  | nil => rfl
  | cons a rest ih => simp only [List.cons_append, List.length_cons, List.getD_cons_succ]; exact ih

theorem set_append_length {α : Type} (l : List α) (x y : α) :
    (l ++ [x]).set l.length y = l ++ [y] := by
  induction l with
  | nil => rfl
  | cons a rest ih => simp [List.set, ih]

/-- Errors returned by `terminal_action` leave the symbol tables untouched. -/
theorem terminal_action_error_tables {st : ScanSt} {ip : Nat} {kt : SymKey}
    {vt : SymVal} {e : ParseError}
    (h : (terminal_action st ip kt vt).1 = .error e) :
    (terminal_action st ip kt vt).2 = (kt, vt) := by
  unfold terminal_action at h ⊢
  cases hd : st.dfa <;> simp only [hd] at h ⊢ <;> try rfl
  case aInt =>
    by_cases h1 : nat_of_digits st.sb > 65535
    · simp [h1]
    · by_cases h2 : nat_of_digits st.sb > 32767
      · simp [h1, h2]
      · simp [h1, h2] at h
  case aSym =>
    rcases hs : sym_lookup st.sb kt with _ | id <;> simp [hs] at h ⊢
  case lClose =>
    rcases hs : sym_lookup st.sb kt with _ | id <;> simp [hs] at h ⊢
    split <;> simp_all
  case cComp =>
    rcases h0 : DestMne.from_mne_buf st.mb0 with e0 | d0 <;> simp [h0] at h ⊢
    rcases h1 : CompMne.from_mne_buf st.mb1 with e1 | c1 <;> simp [h1] at h ⊢
  case cJump1 =>
    rcases h0 : CompMne.from_mne_buf st.mb0 with e0 | c0 <;> simp [h0] at h ⊢
    rcases h1 : JumpMne.from_mne_buf st.mb1 with e1 | j1 <;> simp [h1] at h ⊢
  case cJump2 =>
    rcases h0 : DestMne.from_mne_buf st.mb0 with e0 | d0 <;> simp [h0] at h ⊢
    rcases h1 : CompMne.from_mne_buf st.mb1 with e1 | c1 <;> simp [h1] at h ⊢
    rcases h2 : JumpMne.from_mne_buf st.mb2 with e2 | j2 <;> simp [h2] at h ⊢

/-! ## The claims -/

/-- C9: whenever `parse_ins` returns an error for a line -- any `ParseError`
-- both symbol-table structures (the name-to-slot map and the slot value
vector) are left exactly as they were before the call: a failing parse never
interns a new symbol and never mutates an existing entry. -/
theorem parse_ins_error_leaves_tables (l : String) (ip : Nat) (kt : SymKey)
    (vt : SymVal) (e : ParseError)
    (h : (parse_ins l ip kt vt).1 = .error e) :
    (parse_ins l ip kt vt).2.1 = kt ∧ (parse_ins l ip kt vt).2.2 = vt := by
  unfold parse_ins at h ⊢
  cases hs : scan_of l with
  | error e2 => simp [hs]
  | ok st =>
    simp only [hs] at h ⊢
    have := @terminal_action_error_tables st ip kt vt e h
    exact ⟨congrArg Prod.fst this, congrArg Prod.snd this⟩

/-- Witness for C9 at a concrete failing line: `"("` fails with
`LInsMissingSym` and the populated tables are returned unchanged. -/
theorem parse_ins_error_leaves_tables_witness :
    (parse_ins "(" 0 [("x", 0)] [(5, .LROM)]).2.1 = [("x", 0)] ∧
    (parse_ins "(" 0 [("x", 0)] [(5, .LROM)]).2.2 = [(5, .LROM)] :=
  parse_ins_error_leaves_tables "(" 0 [("x", 0)] [(5, .LROM)]
    .lInsMissingSym (by decide)

/-- The program of the spec's label-resolution scenario: `(END)` defined with
`@END`, `0;JMP` as instructions 25 and 26 (0-indexed). -/
def c1Program : List String :=
  List.replicate 25 "0;JMP" ++ ["(END)", "@END", "0;JMP"]

/-- C1 (code bug): an L-instruction `(NAME)` parsed while the instruction
pointer equals `p` records NAME with ROM address `p + 1`, not `p` (the ROM
address of the instruction that follows the label definition, as `parse_ins`'s
own doc comment and the spec state). Concretely, `(END)` parsed at
`ins_ptr = 25` records `(26, LROM)`; in the scenario program, `END` occupies
slot 23 of the seeded table, records address 26, and `@END` (output word 25)
encodes 26 = `0000000000011010`, not the claimed 25 = `0000000000011001`. -/
theorem label_records_ip_plus_one :
    parse_ins "(END)" 25 [] [] =
      (.ok (some (.L1 0)), [("END", 0)], [(26, .LROM)]) ∧
    sym_lookup "END" (assemble c1Program).symKey = some 23 ∧
    (assemble c1Program).symVal.getD 23 (0, .ARAM) = (26, .LROM) ∧
    (assemble c1Program).output.getD 25 0 = 26 := by
  refine ⟨by decide, ?_, ?_, ?_⟩ <;> decide

/-- C3 (code bug): the address-distribution walk does not assign addresses
16, 17, ... to the user variables: the predefined slots `R0` (slot 0) and
`SP` (slot 16) also carry kind RAM and the sentinel address 0, so the walk
reassigns them first. For the program `@foo`, `@bar`, `@foo` the code yields
`R0 = 16`, `SP = 17`, `foo = 18`, `bar = 19` instead of the claimed
`foo = 16`, `bar = 17`. -/
theorem distribution_reassigns_r0_and_sp :
    sym_lookup "foo" (assemble ["@foo", "@bar", "@foo"]).symKey = some 23 ∧
    sym_lookup "bar" (assemble ["@foo", "@bar", "@foo"]).symKey = some 24 ∧
    (assemble ["@foo", "@bar", "@foo"]).symVal.getD 23 (0, .ARAM) = (18, .ARAM) ∧
    (assemble ["@foo", "@bar", "@foo"]).symVal.getD 24 (0, .ARAM) = (19, .ARAM) ∧
    (assemble ["@foo", "@bar", "@foo"]).symVal.getD 0 (0, .ARAM) = (16, .ARAM) ∧
    (assemble ["@foo", "@bar", "@foo"]).symVal.getD 16 (0, .ARAM) = (17, .ARAM) := by
  refine ⟨?_, ?_, ?_, ?_, ?_, ?_⟩ <;> decide

end Hack

namespace VmXlat

/-- C2 (code bug): emitting `push static i`/`pop static i` does not produce
the symbol `<stem>.<i>`. The digit loop writes its first digit at index 3 of
the 3-element buffer, an out-of-bounds write (a panic in Rust), so every
`static i` with `i ≥ 1` -- including the claimed `A.3`/`B.3` scenario --
aborts; and for `i = 0` the loop body never runs, producing `"A."` with no
digit instead of `"A.0"`. -/
theorem compose_static_label_overruns :
    compose_segment_label ⟨"A", ""⟩ .Static 3 = .error .SliceOverrun ∧
    compose_segment_label ⟨"B", ""⟩ .Static 3 = .error .SliceOverrun ∧
    compose_segment_label ⟨"A", ""⟩ .Static 239 = .error .SliceOverrun ∧
    compose_segment_label ⟨"A", ""⟩ .Static 0 = .ok "A." := by
  have h3 : static_digit_loop 3 3 [Char.ofNat 0, Char.ofNat 0, Char.ofNat 0] =
      .error .SliceOverrun := by
    rw [static_digit_loop]
    norm_num
  have h239 : static_digit_loop 239 3 [Char.ofNat 0, Char.ofNat 0, Char.ofNat 0] =
      .error .SliceOverrun := by
    rw [static_digit_loop]
    norm_num
  have h0 : static_digit_loop 0 3 [Char.ofNat 0, Char.ofNat 0, Char.ofNat 0] =
      .ok [Char.ofNat 0, Char.ofNat 0, Char.ofNat 0] := by
    rw [static_digit_loop]
    norm_num
  refine ⟨?_, ?_, ?_, ?_⟩ <;>
    simp [compose_segment_label, h3, h239, h0]

end VmXlat

namespace Hack

/-- A line whose scan ends in the `ASym` state parses to the terminal action
of that state. -/
theorem parse_ins_scan_aSym {la : String} {sta : ScanSt}
    (ha : scan_of la = .ok sta) (had : sta.dfa = .aSym)
    (ip : Nat) (kt : SymKey) (vt : SymVal) :
    parse_ins la ip kt vt =
      (match sym_lookup sta.sb kt with
       | some id => (.ok (some (.A2 id)), kt, vt)
       | none => (.ok (some (.A2 vt.length)), kt ++ [(sta.sb, vt.length)],
                  vt ++ [(0, .ARAM)])) := by
  have h1 : parse_ins la ip kt vt = terminal_action sta ip kt vt := by
    unfold parse_ins
    rw [ha]
  rw [h1]
  unfold terminal_action
  rw [had]

/-- A line whose scan ends in the `LClose` state parses to the terminal
action of that state. -/
theorem parse_ins_scan_lClose {ll : String} {stl : ScanSt}
    (hl : scan_of ll = .ok stl) (hld : stl.dfa = .lClose)
    (ip : Nat) (kt : SymKey) (vt : SymVal) :
    parse_ins ll ip kt vt =
      (match sym_lookup stl.sb kt with
       | some id =>
         if (vt.getD id (0, .ARAM)).2 = .LROM then (.error .duplicateLabel, kt, vt)
         else (.ok (some (.L1 id)), kt, vt.set id (ip + 1, .LROM))
       | none => (.ok (some (.L1 vt.length)), kt ++ [(stl.sb, vt.length)],
                  vt ++ [(ip + 1, .LROM)])) := by
  have h1 : parse_ins ll ip kt vt = terminal_action stl ip kt vt := by
    unfold parse_ins
    rw [hl]
  rw [h1]
  unfold terminal_action
  rw [hld]

/-- C7: for every symbol name appearing both in an A-reference and in a label
definition, in either textual order, the two uses share a single slot whose
final kind is ROM (label wins), a later A-reference returns that slot with
the tables unchanged, and a second label definition for a name whose entry is
already of kind ROM fails with `DuplicateLabel`. The hypotheses state that
`la` scans as an A-reference of `name` and `ll` as a label definition of
`name`. -/
theorem label_wins_over_variable
    (la ll name : String) (sta stl : ScanSt)
    (ha : scan_of la = .ok sta) (had : sta.dfa = .aSym) (has : sta.sb = name)
    (hl : scan_of ll = .ok stl) (hld : stl.dfa = .lClose) (hls : stl.sb = name)
    (kt : SymKey) (vt : SymVal) (ip1 ip2 : Nat) :
    (sym_lookup name kt = none →
      parse_ins la ip1 kt vt =
        (.ok (some (.A2 vt.length)), kt ++ [(name, vt.length)], vt ++ [(0, .ARAM)]) ∧
      parse_ins ll ip2 (kt ++ [(name, vt.length)]) (vt ++ [(0, .ARAM)]) =
        (.ok (some (.L1 vt.length)), kt ++ [(name, vt.length)], vt ++ [(ip2 + 1, .LROM)]) ∧
      parse_ins ll ip2 kt vt =
        (.ok (some (.L1 vt.length)), kt ++ [(name, vt.length)], vt ++ [(ip2 + 1, .LROM)]) ∧
      parse_ins la ip1 (kt ++ [(name, vt.length)]) (vt ++ [(ip2 + 1, .LROM)]) =
        (.ok (some (.A2 vt.length)), kt ++ [(name, vt.length)], vt ++ [(ip2 + 1, .LROM)])) ∧
    (∀ id, sym_lookup name kt = some id → (vt.getD id (0, .ARAM)).2 = .LROM →
      parse_ins ll ip2 kt vt = (.error .duplicateLabel, kt, vt)) := by
  constructor
  · intro hnone
    refine ⟨?_, ?_, ?_, ?_⟩
    · rw [parse_ins_scan_aSym ha had ip1 kt vt, has, hnone]
    · rw [parse_ins_scan_lClose hl hld ip2 (kt ++ [(name, vt.length)])
        (vt ++ [((0 : Nat), SymUse.ARAM)]), hls,
        sym_lookup_append_none vt.length hnone]
      simp [getD_append_length, set_append_length]
    · rw [parse_ins_scan_lClose hl hld ip2 kt vt, hls, hnone]
    · rw [parse_ins_scan_aSym ha had ip1 (kt ++ [(name, vt.length)])
        (vt ++ [(ip2 + 1, SymUse.LROM)]), has,
        sym_lookup_append_none vt.length hnone]
  · intro id hid hrom
    rw [parse_ins_scan_lClose hl hld ip2 kt vt, hls, hid]
    simp only []
    rw [if_pos hrom]

/-- Witness for C7 at `@foo` and `(foo)` on initially empty tables: the
variable-then-label order rewrites the shared slot 0 to the label value, and
re-defining `(foo)` on the ROM entry is a duplicate-label error. -/
theorem label_wins_over_variable_witness :
    parse_ins "@foo" 0 [] [] =
      (.ok (some (.A2 0)), [("foo", 0)], [(0, .ARAM)]) ∧
    parse_ins "(foo)" 5 [("foo", 0)] [(0, .ARAM)] =
      (.ok (some (.L1 0)), [("foo", 0)], [(6, .LROM)]) ∧
    parse_ins "(foo)" 5 [("foo", 0)] [(6, .LROM)] =
      (.error .duplicateLabel, [("foo", 0)], [(6, .LROM)]) := by
  have h := label_wins_over_variable "@foo" "(foo)" "foo"
    ⟨.aSym, "foo", "", "", ""⟩ ⟨.lClose, "foo", "", "", ""⟩
    rfl rfl rfl rfl rfl rfl [] [] 0 5
  have h2 := label_wins_over_variable "@foo" "(foo)" "foo"
    ⟨.aSym, "foo", "", "", ""⟩ ⟨.lClose, "foo", "", "", ""⟩
    rfl rfl rfl rfl rfl rfl [("foo", 0)] [(6, .LROM)] 0 5
  exact ⟨(h.1 rfl).1, (h.1 rfl).2.1, h2.2 0 rfl rfl⟩

/-- C10: in the parse pass, a line whose parse fails advances the instruction
pointer by one, exactly as an emitted (non-label) instruction does;
consequently a label defined after an erroneous line resolves one address
higher than in the same program with that line removed (demonstrated for
`["@", "(L)"]` versus `["(L)"]`: slot 23 records 2 versus 1). -/
theorem error_lines_advance_ins_ptr :
    (∀ (l : String) (s : DriverSt) (e : ParseError),
       (parse_ins l s.insPtr s.symKey s.symVal).1 = .error e →
       (step_line l s).insPtr = s.insPtr + 1) ∧
    (∀ (l : String) (s : DriverSt) (ins : Ins),
       (parse_ins l s.insPtr s.symKey s.symVal).1 = .ok (some ins) →
       (∀ sid, ins ≠ .L1 sid) →
       (step_line l s).insPtr = s.insPtr + 1) ∧
    ((assemble ["@", "(L)"]).symVal.getD 23 (0, .ARAM) = (2, .LROM) ∧
     (assemble ["(L)"]).symVal.getD 23 (0, .ARAM) = (1, .LROM)) := by
  refine ⟨?_, ?_, by decide, by decide⟩
  · intro l s e h
    rcases hp : parse_ins l s.insPtr s.symKey s.symVal with ⟨r, kt, vt⟩
    rw [hp] at h
    simp only at h
    subst h
    simp only [step_line, hp]
    split_ifs <;> rfl
  · intro l s ins h hL
    rcases hp : parse_ins l s.insPtr s.symKey s.symVal with ⟨r, kt, vt⟩
    rw [hp] at h
    simp only at h
    subst h
    simp only [step_line, hp]
    cases ins with
    | L1 sid => exact absurd rfl (hL sid)
    | A1 v => split_ifs <;> simp_all
    | A2 sid => split_ifs <;> simp_all
    | C1 d c => split_ifs <;> simp_all
    | C2 d c j => split_ifs <;> simp_all
    | C3 c j => split_ifs <;> simp_all

/-- Witness for C10 at a concrete erroneous line and a concrete emitted
instruction, both from the initial driver state. -/
theorem error_lines_advance_ins_ptr_witness :
    (step_line "@" initDriver).insPtr = initDriver.insPtr + 1 ∧
    (step_line "D=A" initDriver).insPtr = initDriver.insPtr + 1 := by
  constructor
  · exact error_lines_advance_ins_ptr.1 "@" initDriver .aInsMissingArg (by decide)
  · exact error_lines_advance_ins_ptr.2.1 "D=A" initDriver
      (.C1 .destD .compA) (by decide) (by intro sid h; cases h)

end Hack

namespace Hack

/-- A finished parse pass is a fixed point of `parse_loop`. -/
theorem parse_loop_done {ls : List String} {s : DriverSt} (h : s.done = true) :
    parse_loop ls s = s := by
  cases ls <;> simp [parse_loop, h]

/-- `parse_loop` splits over list append. -/
theorem parse_loop_append (xs ys : List String) (s : DriverSt) :
    parse_loop (xs ++ ys) s = parse_loop ys (parse_loop xs s) := by
  induction xs generalizing s with
  | nil => rfl
  | cons l rest ih =>
    by_cases h : s.done = true
    · simp [parse_loop, h, parse_loop_done h]
    · simp only [List.cons_append, parse_loop, h, Bool.false_eq_true, if_false]
      exact ih (step_line l s)

/-- `0;JMP` parses to `C3{comp: 0, jump: JMP}` leaving the tables alone. -/
theorem parse_jmp (ip : Nat) (kt : SymKey) (vt : SymVal) :
    parse_ins "0;JMP" ip kt vt = (.ok (some (.C3 .comp0 .jumpJmp)), kt, vt) := rfl

/-- One driver step on a `0;JMP` line: the instruction is retained,
`ins_ptr` advances, and the ROM-exhausted abort fires exactly when the
advanced pointer reaches 32767. -/
theorem step_line_jmp (s : DriverSt) :
    step_line "0;JMP" s =
      (if s.insPtr + 1 ≥ 32767 then
        { s with
          lineCount := s.lineCount + 1,
          inss := s.inss ++ [.C3 .comp0 .jumpJmp], insPtr := s.insPtr + 1,
          romExhausted := true, flushCount := s.flushCount + 1, done := true }
      else
        { s with
          lineCount := s.lineCount + 1,
          inss := s.inss ++ [.C3 .comp0 .jumpJmp], insPtr := s.insPtr + 1 }) := by
  simp only [step_line, parse_jmp]
  split_ifs <;> simp_all

/-- Running the parse pass over `n` copies of `0;JMP` below the ROM bound
advances the counters by `n` and retains `n` instructions. -/
theorem parse_loop_jmp_replicate :
    ∀ (n : Nat) (s : DriverSt), s.done = false → s.insPtr + n < 32767 →
    parse_loop (List.replicate n "0;JMP") s =
      { s with
        lineCount := s.lineCount + n, insPtr := s.insPtr + n,
        inss := s.inss ++ List.replicate n (.C3 .comp0 .jumpJmp) } := by
  intro n
  induction n with
  | zero =>
    intro s h hlt
    simp [parse_loop]
  | succ n ih =>
    intro s h hlt
    rw [List.replicate_succ]
    simp only [parse_loop, h, Bool.false_eq_true, if_false]
    rw [step_line_jmp, if_neg (by omega)]
    rw [ih _ (by simpa using h) (by simp; omega)]
    simp [DriverSt.mk.injEq, List.replicate_succ, List.append_assoc]
    exact ⟨by omega, by omega, h⟩

end Hack

namespace Hack

/-- Encoding a retained list of `0;JMP` instructions yields one word
`1110101010000111` (60039) per instruction. -/
theorem filterMap_encode_jmp (n : Nat) (vt : SymVal) :
    (List.replicate n (Ins.C3 .comp0 .jumpJmp)).filterMap
      (fun i => encode_ins i vt) = List.replicate n 60039 := by
  have he : encode_ins (.C3 .comp0 .jumpJmp) vt = some 60039 := by
    simp [encode_ins, comp_bits, jump_bits]
  induction n with
  | zero => simp
  | succ n ih => simp [List.replicate_succ, List.filterMap_cons, he, ih]

/-- The seeded slot table after the address-distribution walk when no user
variable exists: `R0` (slot 0) and `SP` (slot 16) carry kind RAM and the
sentinel address 0, so the walk reassigns them to 16 and 17. -/
def seedValDist : SymVal :=
  [(16, .ARAM), (1, .ARAM), (2, .ARAM), (3, .ARAM), (4, .ARAM), (5, .ARAM),
   (6, .ARAM), (7, .ARAM), (8, .ARAM), (9, .ARAM), (10, .ARAM), (11, .ARAM),
   (12, .ARAM), (13, .ARAM), (14, .ARAM), (15, .ARAM),
   (17, .ARAM), (1, .ARAM), (2, .ARAM), (3, .ARAM), (4, .ARAM),
   (16384, .ARAM), (24576, .ARAM)]

/-- Distributing over the freshly seeded table consumes addresses 16 and 17
on `R0` and `SP` and leaves the counter at 18. -/
theorem distribute_ram_seed : distribute_ram seedVal 16 = ⟨seedValDist, 18, false⟩ := by
  decide


/-- `assemble` after an early-returning parse pass: no output, no extra
flush, no RAM distribution. -/
theorem assemble_eq_done (lines : List String)
    (h : (parse_loop lines initDriver).done = true) :
    assemble lines =
      ⟨(parse_loop lines initDriver).lineCount,
       (parse_loop lines initDriver).insPtr, [],
       (parse_loop lines initDriver).flushCount,
       (parse_loop lines initDriver).errors,
       (parse_loop lines initDriver).errorCount,
       (parse_loop lines initDriver).symKey,
       (parse_loop lines initDriver).symVal,
       (parse_loop lines initDriver).romExhausted, false⟩ := by
  simp only [assemble]
  rw [if_pos h]


/-- `assemble` when the parse pass finishes and the distribution walk does
not exhaust RAM: the retained instructions are encoded against the
distributed table and one final flush is issued. -/
theorem assemble_eq_go (lines : List String)
    (h1 : (parse_loop lines initDriver).done = false)
    (h2 : (distribute_ram (parse_loop lines initDriver).symVal
            (parse_loop lines initDriver).nextVarRam).exhausted = false) :
    assemble lines =
      ⟨(parse_loop lines initDriver).lineCount,
       (parse_loop lines initDriver).insPtr,
       (parse_loop lines initDriver).inss.filterMap
         (fun i => encode_ins i
           (distribute_ram (parse_loop lines initDriver).symVal
             (parse_loop lines initDriver).nextVarRam).table),
       (parse_loop lines initDriver).flushCount + 1,
       (parse_loop lines initDriver).errors,
       (parse_loop lines initDriver).errorCount,
       (parse_loop lines initDriver).symKey,
       (distribute_ram (parse_loop lines initDriver).symVal
         (parse_loop lines initDriver).nextVarRam).table,
       false, false⟩ := by
  simp only [assemble]
  rw [if_neg (by simp [h1]), if_neg (by simp [h2])]


/-- C4 (counterexample): an error-free input of exactly 32767 emitted
instructions does not complete. -/
theorem rom_exhausted_on_32767th_ins :
    (assemble (List.replicate 32767 "0;JMP")).romExhausted = true ∧
    (assemble (List.replicate 32767 "0;JMP")).output = [] ∧
    (assemble (List.replicate 32767 "0;JMP")).insPtr = 32767 ∧
    (assemble (List.replicate 32767 "0;JMP")).errorCount = 0 := by
  have hsplit : List.replicate 32767 "0;JMP" =
      List.replicate 32766 "0;JMP" ++ ["0;JMP"] := by
    have h := List.replicate_succ' 32766 "0;JMP"
    norm_num at h
    exact h
  have hloop : parse_loop (List.replicate 32766 "0;JMP") initDriver =
      { symKey := seedKey, symVal := seedVal, errorCount := 0, lineCount := 32766,
        nextVarRam := 16, insPtr := 32766,
        inss := List.replicate 32766 (Ins.C3 .comp0 .jumpJmp), errors := [],
        flushCount := 0, romExhausted := false, done := false } :=
    (parse_loop_jmp_replicate 32766 initDriver rfl (by decide)).trans rfl
  have hfin : parse_loop (List.replicate 32767 "0;JMP") initDriver =
      { symKey := seedKey, symVal := seedVal, errorCount := 0, lineCount := 32767,
        nextVarRam := 16, insPtr := 32767,
        inss := List.replicate 32766 (Ins.C3 .comp0 .jumpJmp) ++ [.C3 .comp0 .jumpJmp],
        errors := [], flushCount := 1, romExhausted := true, done := true } := by
    rw [hsplit, parse_loop_append, hloop]
    exact rfl
  have hA := assemble_eq_done (List.replicate 32767 "0;JMP") (by rw [hfin])
  rw [hA, hfin]
  exact ⟨rfl, rfl, rfl, rfl⟩


/-- C4 (amended): assembling at most 32766 emitted instructions completes. -/
theorem assemble_ok_upto_32766 (n : Nat) (h : n ≤ 32766) :
    (assemble (List.replicate n "0;JMP")).romExhausted = false ∧
    (assemble (List.replicate n "0;JMP")).ramExhausted = false ∧
    (assemble (List.replicate n "0;JMP")).errorCount = 0 ∧
    (assemble (List.replicate n "0;JMP")).output = List.replicate n 60039 ∧
    (assemble (List.replicate n "0;JMP")).flushCount = 1 := by
  have hloop := parse_loop_jmp_replicate n initDriver rfl
    (by show initDriver.insPtr + n < 32767
        have h0 : initDriver.insPtr = 0 := rfl
        omega)
  have hdone : (parse_loop (List.replicate n "0;JMP") initDriver).done = false := by
    rw [hloop]
    exact rfl
  have hdist : distribute_ram (parse_loop (List.replicate n "0;JMP") initDriver).symVal
      (parse_loop (List.replicate n "0;JMP") initDriver).nextVarRam =
      ⟨seedValDist, 18, false⟩ := by
    rw [hloop]
    exact distribute_ram_seed
  have hA := assemble_eq_go (List.replicate n "0;JMP") hdone (by rw [hdist])
  rw [hA]
  refine ⟨rfl, rfl, ?_, ?_, ?_⟩
  · rw [hloop]
    exact rfl
  · show ((parse_loop (List.replicate n "0;JMP") initDriver).inss.filterMap
      (fun i => encode_ins i
        (distribute_ram (parse_loop (List.replicate n "0;JMP") initDriver).symVal
          (parse_loop (List.replicate n "0;JMP") initDriver).nextVarRam).table)) =
      List.replicate n 60039
    rw [hdist, hloop]
    exact filterMap_encode_jmp n seedValDist
  · show (parse_loop (List.replicate n "0;JMP") initDriver).flushCount + 1 = 1
    rw [hloop]
    exact rfl

/-- Witness for the amended C4 at `n = 3`. -/
theorem assemble_ok_upto_32766_witness :
    (assemble (List.replicate 3 "0;JMP")).romExhausted = false ∧
    (assemble (List.replicate 3 "0;JMP")).ramExhausted = false ∧
    (assemble (List.replicate 3 "0;JMP")).errorCount = 0 ∧
    (assemble (List.replicate 3 "0;JMP")).output = List.replicate 3 60039 ∧
    (assemble (List.replicate 3 "0;JMP")).flushCount = 1 :=
  assemble_ok_upto_32766 3 (by norm_num)

end Hack

namespace Hack

/-- `n` consecutive user-variable slots assigned addresses `c`, `c+1`, ... -/
def varLists (c : Nat) : Nat → SymVal
  | 0 => []
  | n + 1 => (c, .ARAM) :: varLists (c + 1) n

/-- Distributing over `n` sentinel-bearing RAM slots below the screen base
assigns consecutive addresses and does not exhaust. -/
theorem distribute_ram_replicate :
    ∀ (n c : Nat), c + n ≤ 16383 →
    distribute_ram (List.replicate n (0, .ARAM)) c =
      ⟨varLists c n, c + n, false⟩ := by
  intro n
  induction n with
  | zero =>
    intro c h
    simp [distribute_ram, varLists]
  | succ n ih =>
    intro c h
    rw [List.replicate_succ]
    simp only [distribute_ram, List.append_eq]
    simp only [and_self, if_true, eq_self_iff_true, ite_true]
    rw [if_neg (by omega)]
    rw [ih (c + 1) (by omega)]
    simp [DistOut.mk.injEq, varLists]
    omega

/-- `distribute_ram` splits over list append when the first part does not
exhaust. -/
theorem distribute_ram_append :
    ∀ (xs ys : SymVal) (c : Nat),
    (distribute_ram xs c).exhausted = false →
    distribute_ram (xs ++ ys) c =
      ⟨(distribute_ram xs c).table ++
        (distribute_ram ys (distribute_ram xs c).counter).table,
       (distribute_ram ys (distribute_ram xs c).counter).counter,
       (distribute_ram ys (distribute_ram xs c).counter).exhausted⟩ := by
  intro xs
  induction xs with
  | nil =>
    intro ys c h
    simp [distribute_ram]
  | cons p rest ih =>
    intro ys c h
    obtain ⟨a, u⟩ := p
    by_cases hc : (u = SymUse.ARAM ∧ a = 0)
    · simp only [distribute_ram, List.cons_append, if_pos hc, List.append_eq,
        ge_iff_le] at h ⊢
      by_cases h16 : 16384 ≤ c + 1
      · rw [if_pos h16] at h
        simp at h
      · rw [if_neg h16] at h ⊢
        simp only at h ⊢
        rw [ih ys (c + 1) h]
        simp [h16]
    · simp only [distribute_ram, List.cons_append, if_neg hc, List.append_eq,
        ge_iff_le] at h ⊢
      by_cases h16 : 16384 ≤ c
      · rw [if_pos h16] at h
        simp at h
      · rw [if_neg h16] at h ⊢
        simp only at h ⊢
        rw [ih ys c h]
        simp [h16]


/-- Projection of a literal `DistOut`. -/
theorem DistOut_table_mk (a : SymVal) (b : Nat) (c : Bool) :
    (⟨a, b, c⟩ : DistOut).table = a := rfl

/-- Projection of a literal `DistOut`. -/
theorem DistOut_counter_mk (a : SymVal) (b : Nat) (c : Bool) :
    (⟨a, b, c⟩ : DistOut).counter = b := rfl

/-- Projection of a literal `DistOut`. -/
theorem DistOut_exhausted_mk (a : SymVal) (b : Nat) (c : Bool) :
    (⟨a, b, c⟩ : DistOut).exhausted = c := rfl

/-- C5 (counterexample): the address-distribution pass does not accommodate
16368 user variables: with only 16366 user-variable slots appended to the
seeded table (counter starting at 16), the walk -- which also reassigns the
sentinel-bearing predefined `R0` and `SP` -- drives the counter to 16384 and
reports the fatal RAM-exhausted error. -/
theorem ram_exhausted_on_16366th_var :
    (distribute_ram (seedVal ++ List.replicate 16366 (0, .ARAM)) 16).exhausted = true ∧
    (distribute_ram (seedVal ++ List.replicate 16366 (0, .ARAM)) 16).counter = 16384 := by
  have hsplit : List.replicate 16366 ((0 : Nat), SymUse.ARAM) =
      List.replicate 16365 ((0 : Nat), SymUse.ARAM) ++ [(0, .ARAM)] := by
    have h := List.replicate_succ' 16365 ((0 : Nat), SymUse.ARAM)
    norm_num at h
    exact h
  have h1 : distribute_ram (List.replicate 16365 ((0 : Nat), SymUse.ARAM)) 18 =
      ⟨varLists 18 16365, 16383, false⟩ :=
    (distribute_ram_replicate 16365 18 (by norm_num)).trans (by norm_num)
  have happ1 := distribute_ram_append seedVal (List.replicate 16366 (0, .ARAM)) 16
    (by rw [distribute_ram_seed])
  have happ2 := distribute_ram_append (List.replicate 16365 ((0 : Nat), SymUse.ARAM))
    [(0, .ARAM)] 18 (by rw [h1])
  have hlast : distribute_ram [((0 : Nat), SymUse.ARAM)] 16383 =
      ⟨[(16383, .ARAM)], 16384, true⟩ := by decide
  constructor
  · rw [happ1, distribute_ram_seed, DistOut_exhausted_mk, DistOut_counter_mk,
      hsplit, happ2, DistOut_exhausted_mk, h1, DistOut_counter_mk, hlast,
      DistOut_exhausted_mk]
  · rw [happ1, distribute_ram_seed, DistOut_counter_mk, DistOut_counter_mk,
      hsplit, happ2, DistOut_counter_mk, h1, DistOut_counter_mk, hlast,
      DistOut_counter_mk]

/-- C5 (amended): the address-distribution pass succeeds for up to 16365 user
variables -- which receive addresses 18, 19, ..., since the predefined `R0`
and `SP` also bear the sentinel and consume 16 and 17 -- and the counter ends
at `18 + n`; one more variable drives the counter to the screen base 16384,
which the walk treats as fatal even though that variable was assigned
address 16383. -/
theorem distribution_ok_upto_16365 (n : Nat) (h : n ≤ 16365) :
    (distribute_ram (seedVal ++ List.replicate n (0, .ARAM)) 16).exhausted = false ∧
    (distribute_ram (seedVal ++ List.replicate n (0, .ARAM)) 16).counter = 18 + n ∧
    (distribute_ram (seedVal ++ List.replicate n (0, .ARAM)) 16).table =
      seedValDist ++ varLists 18 n := by
  have hn : distribute_ram (List.replicate n ((0 : Nat), SymUse.ARAM)) 18 =
      ⟨varLists 18 n, 18 + n, false⟩ := distribute_ram_replicate n 18 (by omega)
  have happ := distribute_ram_append seedVal (List.replicate n (0, .ARAM)) 16
    (by rw [distribute_ram_seed])
  refine ⟨?_, ?_, ?_⟩
  · rw [happ, distribute_ram_seed, DistOut_exhausted_mk, DistOut_counter_mk,
      hn, DistOut_exhausted_mk]
  · rw [happ, distribute_ram_seed, DistOut_counter_mk, DistOut_counter_mk,
      hn, DistOut_counter_mk]
  · rw [happ, distribute_ram_seed, DistOut_table_mk, DistOut_table_mk,
      DistOut_counter_mk, hn, DistOut_table_mk]

/-- Witness for the amended C5 at one user variable: it receives address 18
and the counter ends at 19. -/
theorem distribution_ok_upto_16365_witness :
    (distribute_ram (seedVal ++ List.replicate 1 (0, .ARAM)) 16).exhausted = false ∧
    (distribute_ram (seedVal ++ List.replicate 1 (0, .ARAM)) 16).counter = 18 + 1 ∧
    (distribute_ram (seedVal ++ List.replicate 1 (0, .ARAM)) 16).table =
      seedValDist ++ varLists 18 1 :=
  distribution_ok_upto_16365 1 (by norm_num)

end Hack


namespace Hack

/-- C6 (counterexample): ten failing lines abort the parse pass -- the 11th
line is never read -- and the driver returns with the output writer never
explicitly flushed (`flushCount = 0`). -/
theorem ten_errors_return_without_flush :
    (assemble (List.replicate 10 "@")).errorCount = 10 ∧
    (assemble (List.replicate 10 "@")).flushCount = 0 ∧
    (assemble (List.replicate 10 "@")).output = [] ∧
    (assemble (List.replicate 11 "@")).lineCount = 10 := by
  refine ⟨?_, ?_, ?_, ?_⟩ <;> decide

/-- C6 (amended): each failing line is reported with its line number and the
driver continues; the 10th parse error stops the pass, but that return path
does not flush the output writer; a step that newly reports ROM exhaustion
flushes, and whenever the parse pass finishes without an early return, the
rest of `assemble` (the RAM-exhausted abort as well as normal termination)
flushes exactly once. -/
theorem flush_on_error_paths :
    (∀ (l : String) (s : DriverSt) (e : ParseError),
      (parse_ins l s.insPtr s.symKey s.symVal).1 = .error e →
      ((step_line l s).errors = s.errors ++ [(s.lineCount + 1, e)] ∧
       (step_line l s).errorCount = s.errorCount + 1) ∧
      (s.errorCount + 1 < 10 → s.insPtr + 1 < 32767 →
        (step_line l s).done = s.done ∧ (step_line l s).flushCount = s.flushCount) ∧
      (s.errorCount + 1 ≥ 10 →
        (step_line l s).done = true ∧ (step_line l s).flushCount = s.flushCount)) ∧
    (∀ (l : String) (s : DriverSt), s.romExhausted = false →
      (step_line l s).romExhausted = true →
      (step_line l s).flushCount = s.flushCount + 1) ∧
    (∀ lines : List String, (parse_loop lines initDriver).done = false →
      (assemble lines).flushCount = (parse_loop lines initDriver).flushCount + 1) := by
  refine ⟨?_, ?_, ?_⟩
  · intro l s e h
    rcases hp : parse_ins l s.insPtr s.symKey s.symVal with ⟨r, kt, vt⟩
    rw [hp] at h
    simp only at h
    subst h
    simp only [step_line, hp]
    refine ⟨⟨?_, ?_⟩, ?_, ?_⟩
    · split_ifs <;> rfl
    · split_ifs <;> rfl
    · intro h10 hrom
      split_ifs <;> first | exact ⟨rfl, rfl⟩ | omega
    · intro h10
      split_ifs
      exact ⟨rfl, rfl⟩
  · intro l s h0 h1
    rcases hp : parse_ins l s.insPtr s.symKey s.symVal with ⟨r, kt, vt⟩
    cases r with
    | error e =>
      simp only [step_line, hp] at h1 ⊢
      split_ifs at h1 ⊢ <;> simp_all
    | ok o =>
      cases o with
      | none => simp only [step_line, hp] at h1 ⊢; simp_all
      | some ins =>
        cases ins <;>
          (simp only [step_line, hp] at h1 ⊢; split_ifs at h1 ⊢ <;> simp_all)
  · intro lines h
    simp only [assemble]
    rw [if_neg (by simp [h])]
    split <;> rfl

/-- Witness for the amended C6: a failing line from the initial state is
reported and neither stops nor flushes; a step that hits the ROM bound
flushes; a completed single-line assembly flushes exactly once. -/
theorem flush_on_error_paths_witness :
    ((step_line "@" initDriver).errors =
       initDriver.errors ++ [(initDriver.lineCount + 1, ParseError.aInsMissingArg)] ∧
     (step_line "@" initDriver).done = initDriver.done ∧
     (step_line "@" initDriver).flushCount = initDriver.flushCount) ∧
    (step_line "0;JMP" { initDriver with insPtr := 32766 }).flushCount =
      { initDriver with insPtr := 32766 }.flushCount + 1 ∧
    (assemble ["@1"]).flushCount = (parse_loop ["@1"] initDriver).flushCount + 1 := by
  have H := flush_on_error_paths
  have hA := H.1 "@" initDriver ParseError.aInsMissingArg (by decide)
  have hB := H.2.1 "0;JMP" { initDriver with insPtr := 32766 } (by decide) (by decide)
  have hC := H.2.2 ["@1"] (by decide)
  exact ⟨⟨hA.1.1, (hA.2.1 (by decide) (by decide)).1,
    (hA.2.1 (by decide) (by decide)).2⟩, hB, hC⟩

end Hack
namespace VmXlat

/-- C8 (counterexample): `Regex::is_match` of the unanchored `TOKEN` pattern
tests containment, not a full match, so a word with a character outside the
class (`a-b`) and a word starting with a digit (`9abc`) are both classified
`Identifier` although neither matches `[A-Za-z_.$:][A-Za-z0-9_.$:]*` in
full. -/
theorem identifier_without_full_match :
    "a-b" ∈ words_of "a-b 9abc // tail" ∧
    VmToken.from_str "a-b" = .ok (.Identifier "a-b") ∧
    spec_ident_full_match "a-b" = false ∧
    "9abc" ∈ words_of "a-b 9abc // tail" ∧
    VmToken.from_str "9abc" = .ok (.Identifier "9abc") ∧
    spec_ident_full_match "9abc" = false := by
  refine ⟨?_, ?_, ?_, ?_, ?_, ?_⟩ <;> decide

/-- C8 (amended): each source word of a line is classified in the claimed
order -- decimal integer, command keyword, segment keyword -- but the final
identifier test of `VmToken::from_str` is containment of a `[\w.$:]`
character, not a full match of the spec pattern: a remaining word is
`Identifier` exactly when some character is in the class, and `InvalidToken`
exactly when none is. -/
theorem token_classification :
    ∀ (line w : String), w ∈ words_of line →
      (∀ n, parse_u16 w = some n →
        VmToken.from_str w = .ok (.IntConst n)) ∧
      (∀ c, parse_u16 w = none → cmd_of_str w = some c →
        VmToken.from_str w = .ok (.Command c)) ∧
      (∀ s, parse_u16 w = none → cmd_of_str w = none → seg_of_str w = some s →
        VmToken.from_str w = .ok (.Segment s)) ∧
      (parse_u16 w = none → cmd_of_str w = none → seg_of_str w = none →
        (VmToken.from_str w = .ok (.Identifier w) ↔
          w.toList.any is_vm_word_char = true) ∧
        (VmToken.from_str w = .error (.InvalidToken w) ↔
          w.toList.any is_vm_word_char = false)) := by
  intro line w _
  refine ⟨?_, ?_, ?_, ?_⟩
  · intro n h
    simp [VmToken.from_str, h]
  · intro c h1 h2
    simp [VmToken.from_str, h1, h2]
  · intro s h1 h2 h3
    simp [VmToken.from_str, h1, h2, h3]
  · intro h1 h2 h3
    by_cases ha : w.toList.any is_vm_word_char = true
    · constructor
      · simp [VmToken.from_str, h1, h2, h3, ha]
      · simp [VmToken.from_str, h1, h2, h3, ha]
    · constructor
      · simp [VmToken.from_str, h1, h2, h3, ha]
      · simp only [Bool.not_eq_true] at ha
        simp [VmToken.from_str, h1, h2, h3, ha]

/-- Witness for the amended C8: the words of one concrete line hit every
branch of the classification. -/
theorem token_classification_witness :
    VmToken.from_str "7" = .ok (.IntConst 7) ∧
    VmToken.from_str "push" = .ok (.Command .Push) ∧
    VmToken.from_str "local" = .ok (.Segment .Local) ∧
    VmToken.from_str "a-b" = .ok (.Identifier "a-b") ∧
    VmToken.from_str "-" = .error (.InvalidToken "-") := by
  have H1 := token_classification "7 push local a-b -" "7" (by decide)
  have H2 := token_classification "7 push local a-b -" "push" (by decide)
  have H3 := token_classification "7 push local a-b -" "local" (by decide)
  have H4 := token_classification "7 push local a-b -" "a-b" (by decide)
  have H5 := token_classification "7 push local a-b -" "-" (by decide)
  refine ⟨H1.1 7 (by decide), H2.2.1 .Push (by decide) (by decide),
    H3.2.2.1 .Local (by decide) (by decide) (by decide),
    (H4.2.2.2 (by decide) (by decide) (by decide)).1.mpr (by decide),
    (H5.2.2.2 (by decide) (by decide) (by decide)).2.mpr (by decide)⟩

end VmXlat
